import Mathlib

/-!
Shallow embedding of `snake.py` (a pygame snake game written as one global
game loop) and verification of the specification claims about it.

The embedding keeps the source's names where possible.  Randomness
(`random.randint`, `get_next_food_time`) and the wall clock (`time.time()`)
are passed in as explicit oracle parameters; rendering calls carry no state
and are elided.  Python integers become `Int` (Python's `%` with a positive
modulus agrees with `Int.emod`, and `//` on non-negative operands agrees
with `Int.ediv`), wall-clock floats become `Rat` (only their ordering is
ever used by the control flow), the fallible `list.remove` becomes an
`Option`-returning removal and the event handler an `Except`.
-/

namespace SnakeGame

/-- Constant `PARTS_AFTER_FOOD = 3` from the source. -/
def PARTS_AFTER_FOOD : Int := 3

/-- Constant `INITIAL_LENGTH = 4` from the source. -/
def INITIAL_LENGTH : Nat := 4

/-- Constant `FPS = 16` from the source. -/
def FPS : Rat := 16

/-- `interval = 1 / FPS` from the source. -/
def interval : Rat := 1 / FPS

/-- The `Direction` IntEnum from the source. -/
inductive Direction
  | up
  | right
  | down
  | left
deriving DecidableEq, Fintype

/-- The integer value of each `Direction` member (`UP = 1`, `RIGHT = 2`,
`DOWN = 3`, `LEFT = 4`). -/
def Direction.val : Direction → Nat
  | .up => 1
  | .right => 2
  | .down => 3
  | .left => 4

/-- `Direction.reversed`: `min(direction1, direction2) + 2 ==
max(direction1, direction2)` on the enum values. -/
def Direction.reversed (d1 d2 : Direction) : Bool :=
  min d1.val d2.val + 2 == max d1.val d2.val

/-- `Direction.vector`.  In the source a non-member argument returns `None`;
that branch is unreachable because every call site passes an enum member,
so the embedding is total over the four members. -/
def Direction.vector : Direction → Int × Int
  | .up => (0, -1)
  | .right => (1, 0)
  | .down => (0, 1)
  | .left => (-1, 0)

/-- `add_vectors` from the source. -/
def add_vectors (v1 v2 : Int × Int) : Int × Int :=
  (v1.1 + v2.1, v1.2 + v2.2)

/-- The keys the event handler inspects; `other` stands for any key the
if/elif chains fall through on. -/
inductive Key
  | w
  | a
  | s
  | d
  | space
  | escape
  | other
deriving DecidableEq

/-- One pygame event: quit, key down, key up, or any other event type
(which the loop ignores). -/
inductive Event
  | quit
  | keyDown (k : Key)
  | keyUp (k : Key)
  | other
deriving DecidableEq

/-- The top-level mutable state of the game loop (lines 74-90 of the
source): the snake body (head first), pending growth, the held-key list,
the last released direction, the food set, the two wall-clock deadlines
and the running/paused flags. -/
structure GameState where
  snake : List (Int × Int)
  spare_parts : Int
  direction : List Direction
  last_direction : Direction
  food : Finset (Int × Int)
  next_food : Rat
  next_frame : Rat
  running : Bool
  paused : Bool
deriving DecidableEq

/-- Python `list.remove`: drop the first occurrence of `a`, or fail (the
source would raise `ValueError`) when `a` is absent. -/
def removeFirst {α : Type} [DecidableEq α] (a : α) : List α → Option (List α)
  | [] => none
  | x :: xs => if x = a then some xs else (removeFirst a xs).map (fun l => x :: l)

/-- The KEYUP branch for one movement key (lines 130-145):
`direction.remove(d)` — raising when `d` is not held — then, if no keys
remain held, `last_direction = d`. -/
def keyUpDir (d : Direction) (st : GameState) : Except Unit GameState :=
  match removeFirst d st.direction with
  | none => Except.error ()
  | some l =>
      Except.ok { st with
        direction := l,
        last_direction := if l = [] then d else st.last_direction }

/-- One iteration of the event for-loop (lines 96-145).  `now` is the value
`time.time()` would return in the pause branch and `fs` the random sample
`get_next_food_time(next_food_range)` drawn there. -/
def handleEvent (now fs : Rat) (e : Event) (st : GameState) : Except Unit GameState :=
  match e with
  | Event.quit => Except.ok { st with running := false, paused := true }
  | Event.keyDown k =>
    match k with
    | Key.escape => Except.ok { st with running := false, paused := true }
    | Key.space =>
        Except.ok { st with paused := !st.paused,
                            next_food := now + fs, next_frame := now }
    | Key.w => Except.ok { st with direction := st.direction ++ [Direction.up] }
    | Key.a => Except.ok { st with direction := st.direction ++ [Direction.left] }
    | Key.s => Except.ok { st with direction := st.direction ++ [Direction.down] }
    | Key.d => Except.ok { st with direction := st.direction ++ [Direction.right] }
    | Key.other => Except.ok st
  | Event.keyUp k =>
    match k with
    | Key.w => keyUpDir Direction.up st
    | Key.a => keyUpDir Direction.left st
    | Key.s => keyUpDir Direction.down st
    | Key.d => keyUpDir Direction.right st
    | _ => Except.ok st
  | Event.other => Except.ok st

/-- Line 168: `last_direction if len(direction) == 0 else direction[-1]`. -/
def effectiveDirection (direction : List Direction) (last_direction : Direction) : Direction :=
  direction.getLastD last_direction

/-- Line 182: `(snake[0][0] % world_width, snake[0][1] % world_height)`. -/
def wrapCell (worldW worldH : Int) (p : Int × Int) : Int × Int :=
  (p.1 % worldW, p.2 % worldH)

/-- Lines 154-157: when the food deadline has passed, insert one random
cell (`c`, drawn by `random.randint(0, world_width)` x
`random.randint(0, world_height)`) and push the deadline by the random
sample `fd`. -/
def spawnFood (now fd : Rat) (c : Int × Int) (s : GameState) : GameState :=
  if s.next_food ≤ now then
    { s with food := insert c s.food, next_food := s.next_food + fd }
  else s

/-- Lines 168 and 174: the unwrapped new head,
`add_vectors(snake[0], Direction.vector(effective direction))`. -/
def rawHead (s : GameState) (hd0 : Int × Int) : Int × Int :=
  add_vectors hd0 (Direction.vector (effectiveDirection s.direction s.last_direction))

/-- Lines 168-192, the snake update, for a given body list: shift the body
(`snake[index] = snake[index - 1]` leaves `[old0, old0, old1, ...]`, so
after `snake[0] = add_vectors(snake[0], current_direction)` the body is
`newHead :: dropLast old`), test self-collision on the unwrapped head,
wrap the head, append the saved tail while `spare_parts > 0`, and consume
food under the wrapped head.  The source never runs this with an empty
body (the body starts at length 4 and never shrinks); the `[]` case
returns the state unchanged. -/
def moveSnakeAux (worldW worldH : Int) (s : GameState) : List (Int × Int) → GameState
  | [] => s
  | hd0 :: rest =>
    let last_body := rest.getLastD hd0
    let newHead := rawHead s hd0
    let body1 := newHead :: (hd0 :: rest).dropLast
    if 1 < body1.count newHead then
      { s with snake := body1, running := false }
    else
      let wrappedHead := wrapCell worldW worldH newHead
      let body2 := wrappedHead :: (hd0 :: rest).dropLast
      let body3 := if 0 < s.spare_parts then body2 ++ [last_body] else body2
      let sp := if 0 < s.spare_parts then s.spare_parts - 1 else s.spare_parts
      if wrappedHead ∈ s.food then
        { s with snake := body3, spare_parts := sp + PARTS_AFTER_FOOD,
                 food := s.food.erase wrappedHead }
      else
        { s with snake := body3, spare_parts := sp }

/-- Lines 168-192 applied to the state's own body. -/
def moveSnake (worldW worldH : Int) (s : GameState) : GameState :=
  moveSnakeAux worldW worldH s s.snake

/-- Lines 147-192: one pass of the loop body after the event for-loop.
`continue` when paused; spawn food when its deadline passed; `continue`
when the frame deadline has not been reached; otherwise push the frame
deadline by `interval` and update the snake.  `now` is `time.time()` at
line 152, `c` the random food cell and `fd` the random deadline
increment. -/
def tick (worldW worldH : Int) (now fd : Rat) (c : Int × Int) (s : GameState) : GameState :=
  if s.paused then s
  else
    let s1 := spawnFood now fd c s
    if now < s1.next_frame then s1
    else moveSnake worldW worldH { s1 with next_frame := s1.next_frame + interval }

/-- Lines 77-90: the initial global state.  `tFood` and `tFrame` are the
two `time.time()` readings at lines 83 and 87; `worldW / 2` is Python's
`world_width // 2` (the dimensions are non-negative). -/
def initState (worldW worldH : Int) (tFood tFrame : Rat) : GameState where
  snake := (List.range INITIAL_LENGTH).map (fun y => (worldW / 2, worldH / 2 + (y : Int)))
  spare_parts := 0
  direction := []
  last_direction := Direction.up
  food := ∅
  next_food := tFood
  next_frame := tFrame
  running := true
  paused := false

/-- One observable operation of the loop: one successfully handled event,
or one pass of the simulation part of the loop body. -/
inductive Step (worldW worldH : Int) : GameState → GameState → Prop
  | ev (now fs : Rat) (e : Event) (s s2 : GameState) :
      handleEvent now fs e s = Except.ok s2 → Step worldW worldH s s2
  | frame (now fd : Rat) (c : Int × Int) (s : GameState) :
      Step worldW worldH s (tick worldW worldH now fd c s)

/-- The states the game loop can reach from the initial state. -/
inductive Reachable (worldW worldH : Int) (tFood tFrame : Rat) : GameState → Prop
  | init : Reachable worldW worldH tFood tFrame (initState worldW worldH tFood tFrame)
  | step {s s2 : GameState} : Reachable worldW worldH tFood tFrame s →
      Step worldW worldH s s2 → Reachable worldW worldH tFood tFrame s2

/-- A cell that lies inside the world grid. -/
def inGrid (worldW worldH : Int) (p : Int × Int) : Prop :=
  0 ≤ p.1 ∧ p.1 < worldW ∧ 0 ≤ p.2 ∧ p.2 < worldH

/-- A state that refutes claim C1: world 3 x 3, body `[(0,0), (2,0), (2,1)]`,
about to move Left. -/
def c1State : GameState where
  snake := [(0, 0), (2, 0), (2, 1)]
  spare_parts := 0
  direction := []
  last_direction := Direction.left
  food := ∅
  next_food := 5
  next_frame := 0
  running := true
  paused := false

/-- A state whose next move is fatal: body `[(5,5), (5,6), (5,7)]` moving
Down, so the unwrapped new head `(5,6)` hits the old second segment. -/
def c1wState : GameState where
  snake := [(5, 5), (5, 6), (5, 7)]
  spare_parts := 0
  direction := [Direction.down]
  last_direction := Direction.up
  food := ∅
  next_food := 9
  next_frame := 0
  running := true
  paused := false

/-- A state that refutes claim C2: the frame deadline (1) is still in the
future at `now = 0`, but the food deadline (0) has passed. -/
def c2State : GameState where
  snake := [(5, 5)]
  spare_parts := 0
  direction := []
  last_direction := Direction.up
  food := ∅
  next_food := 0
  next_frame := 1
  running := true
  paused := false

/-- A state that refutes claim C4: body `[(5,5), (5,6), (5,7)]` moving Down
with one queued spare part. -/
def c4State : GameState where
  snake := [(5, 5), (5, 6), (5, 7)]
  spare_parts := 1
  direction := [Direction.down]
  last_direction := Direction.up
  food := ∅
  next_food := 9
  next_frame := 0
  running := true
  paused := false

/-- A surviving state with queued growth: body `[(5,5), (5,6)]` moving
Right with two queued spare parts. -/
def c4wState : GameState where
  snake := [(5, 5), (5, 6)]
  spare_parts := 2
  direction := [Direction.right]
  last_direction := Direction.up
  food := ∅
  next_food := 9
  next_frame := 0
  running := true
  paused := false

/-- The eating scenario from the spec: food at `(6,5)` and the head about
to move Right from `(5,5)` onto it. -/
def c5State : GameState where
  snake := [(5, 5), (5, 6)]
  spare_parts := 0
  direction := [Direction.right]
  last_direction := Direction.up
  food := {(6, 5)}
  next_food := 9
  next_frame := 0
  running := true
  paused := false

/-- An edge state in a 5 x 5 world: head at `(0,2)` about to move Left. -/
def c8State : GameState where
  snake := [(0, 2), (1, 2)]
  spare_parts := 0
  direction := []
  last_direction := Direction.left
  food := ∅
  next_food := 9
  next_frame := 0
  running := true
  paused := false

/-- Claim C7: `Direction.reversed` is true exactly for the unordered pairs
Up/Down and Left/Right, is symmetric, and is false on equal arguments. -/
theorem reversed_opposite_pairs :
    ∀ d1 d2 : Direction,
      (Direction.reversed d1 d2 = true ↔
        ((d1 = Direction.up ∧ d2 = Direction.down) ∨
         (d1 = Direction.down ∧ d2 = Direction.up) ∨
         (d1 = Direction.left ∧ d2 = Direction.right) ∨
         (d1 = Direction.right ∧ d2 = Direction.left)))
      ∧ Direction.reversed d1 d2 = Direction.reversed d2 d1
      ∧ Direction.reversed d1 d1 = false := by
  decide

/-- Claim C3: a KEYUP event for a direction that is not currently held is
not a no-op in the code — `direction.remove` fails (the source raises an
uncaught `ValueError`), here evaluated on the initial state, whose held
list is empty. -/
theorem keyup_unheld_direction_errors :
    handleEvent 0 1 (Event.keyUp Key.w) (initState 10 10 0 0) = Except.error () := rfl

/-- Claim C1, counterexample: moving Left from head `(0,0)` in a 3 x 3 world,
the wrapped new head `(2,0)` coincides with the body segment `(2,0)` after
the shift, yet the snake stays alive (`running` is still true): the code
tests self-collision on the unwrapped head `(-1,0)` before wrapping. -/
theorem collision_checked_before_wrap_cex :
    (moveSnake 3 3 c1State).snake.head? = some (2, 0) ∧
    (2, 0) ∈ (moveSnake 3 3 c1State).snake.tail ∧
    (moveSnake 3 3 c1State).running = true := by
  decide

/-- Claim C2, counterexample: on an iteration with `now < next_frame`
(0 < 1) the loop still inserts food, because the spawn check at line 155
runs before the frame-deadline gate at line 160. -/
theorem food_spawn_before_frame_gate_cex :
    (0 : Rat) < c2State.next_frame ∧
    (3, 3) ∈ (tick 10 10 0 1 (3, 3) c2State).food := by
  decide

/-- Claim C4, counterexample: with `spare_parts = 1` the move kills the
snake (new head `(5,6)` hits the old second segment), the update stops
before the spare-part append, and the body length stays 3 instead of the
claimed 4. -/
theorem advance_length_dead_with_spare_cex :
    0 < c4State.spare_parts ∧ c4State.snake.length = 3 ∧
    (moveSnake 10 10 c4State).running = false ∧
    (moveSnake 10 10 c4State).snake.length = 3 := by
  decide

/-- Branch-by-branch description of the snake update on a non-empty body:
the collision branch keeps the unwrapped head and clears `running`; the
surviving branch wraps the head, appends the saved tail when growth is
queued, and consumes food under the wrapped head. -/
theorem moveSnake_cons (worldW worldH : Int) (s : GameState) (hd0 : Int × Int)
    (rest : List (Int × Int)) (hsn : s.snake = hd0 :: rest) :
    moveSnake worldW worldH s =
      if rawHead s hd0 ∈ (hd0 :: rest).dropLast then
        { s with snake := rawHead s hd0 :: (hd0 :: rest).dropLast, running := false }
      else
        { s with
          snake := (wrapCell worldW worldH (rawHead s hd0) :: (hd0 :: rest).dropLast)
            ++ (if 0 < s.spare_parts then [rest.getLastD hd0] else []),
          spare_parts := (if 0 < s.spare_parts then s.spare_parts - 1 else s.spare_parts)
            + (if wrapCell worldW worldH (rawHead s hd0) ∈ s.food then PARTS_AFTER_FOOD else 0),
          food := if wrapCell worldW worldH (rawHead s hd0) ∈ s.food
            then s.food.erase (wrapCell worldW worldH (rawHead s hd0)) else s.food } := by
  have h1 : ∀ n : Nat, (1 < n + 1) ↔ 0 < n := fun n => by omega
  by_cases hmem : rawHead s hd0 ∈ (hd0 :: rest).dropLast
  · simp only [moveSnake, hsn, moveSnakeAux, List.count_cons_self, h1, List.count_pos_iff,
      if_pos hmem]
  · simp only [moveSnake, hsn, moveSnakeAux, List.count_cons_self, h1, List.count_pos_iff,
      if_neg hmem]
    by_cases hsp : 0 < s.spare_parts <;>
      by_cases hf : wrapCell worldW worldH (rawHead s hd0) ∈ s.food <;>
        simp [hsp, hf]

/-- Claim C1, amended: the self-collision test runs on the unwrapped new
head, before the modulo wrap — for an alive snake, `advance` reports dead
exactly when the raw head `body_old[0] + vector(direction)` coincides with
another segment after the shift (a coincidence created only by the wrap is
not detected). -/
theorem collision_iff_unwrapped_head_mem (worldW worldH : Int) (s : GameState)
    (hd0 : Int × Int) (rest : List (Int × Int))
    (hr : s.running = true) (hsn : s.snake = hd0 :: rest) :
    ((moveSnake worldW worldH s).running = false ↔
      rawHead s hd0 ∈ (hd0 :: rest).dropLast) := by
  rw [moveSnake_cons worldW worldH s hd0 rest hsn]
  by_cases hmem : rawHead s hd0 ∈ (hd0 :: rest).dropLast
  · simp [hmem]
  · simp [hmem, hr]

/-- Witness for the amended C1: on `c1wState` (moving Down into the old
second segment) the snake is reported dead. -/
theorem collision_iff_unwrapped_head_mem_witness :
    (moveSnake 10 10 c1wState).running = false :=
  (collision_iff_unwrapped_head_mem 10 10 c1wState (5, 5) [(5, 6), (5, 7)] rfl rfl).mpr
    (by decide)

/-- Claim C2, amended: food spawning is gated only by not-paused and
`now >= next_food`, and runs before the frame-deadline check — a paused
iteration changes nothing, an unpaused iteration with `now >= next_food`
inserts the spawned cell even when `now < next_frame`, and an unpaused
iteration with both deadlines in the future changes nothing. -/
theorem food_spawn_gate_characterization (worldW worldH : Int) (now fd : Rat)
    (c : Int × Int) (s : GameState) :
    (s.paused = true → tick worldW worldH now fd c s = s)
    ∧ (s.paused = false → s.next_food ≤ now → now < s.next_frame →
        (tick worldW worldH now fd c s).food = insert c s.food)
    ∧ (s.paused = false → now < s.next_food → now < s.next_frame →
        tick worldW worldH now fd c s = s) := by
  refine ⟨fun hp => ?_, fun hp hnf hfr => ?_, fun hp hnf hfr => ?_⟩
  · simp [tick, hp]
  · simp [tick, hp, spawnFood, hnf, hfr]
  · have hnot : ¬ s.next_food ≤ now := not_le.mpr hnf
    simp [tick, hp, spawnFood, hnot, hfr]

/-- Witness for the amended C2: on `c2State` the frame deadline is in the
future yet the food cell is inserted. -/
theorem food_spawn_gate_characterization_witness :
    (tick 10 10 0 1 (3, 3) c2State).food = insert ((3 : Int), (3 : Int)) c2State.food :=
  (food_spawn_gate_characterization 10 10 0 1 (3, 3) c2State).2.1 rfl (by decide) (by decide)

/-- Claim C4, amended: after the snake update the body length equals the
old length, unless `spare_parts > 0` before the call AND the move leaves
the snake alive, in which case it equals old length + 1; a fatal move
leaves the (discarded) body at the old length even when growth is
queued. -/
theorem advance_length_characterization (worldW worldH : Int) (s : GameState)
    (hd0 : Int × Int) (rest : List (Int × Int))
    (hr : s.running = true) (hsn : s.snake = hd0 :: rest) :
    (moveSnake worldW worldH s).snake.length =
      if (moveSnake worldW worldH s).running = true ∧ 0 < s.spare_parts
      then s.snake.length + 1 else s.snake.length := by
  rw [moveSnake_cons worldW worldH s hd0 rest hsn]
  by_cases hmem : rawHead s hd0 ∈ (hd0 :: rest).dropLast
  · simp [hmem, hsn]
  · by_cases hsp : 0 < s.spare_parts <;> simp [hmem, hsp, hsn, hr]

/-- Witness for the amended C4: a surviving move with two queued spare
parts grows the two-segment body to three. -/
theorem advance_length_characterization_witness :
    (moveSnake 10 10 c4wState).snake.length = 3 := by
  rw [advance_length_characterization 10 10 c4wState (5, 5) [(5, 6)] rfl rfl]
  decide

/-- Claim C5: when the wrapped new head lies in the food set and the move
leaves the snake alive, the update erases exactly that cell from the food
set and adds exactly `PARTS_AFTER_FOOD` (3) to the (already
tail-append-adjusted) spare-part counter; every other food cell stays. -/
theorem eat_food_effects (worldW worldH : Int) (s : GameState)
    (hd0 : Int × Int) (rest : List (Int × Int)) (hsn : s.snake = hd0 :: rest)
    (halive : (moveSnake worldW worldH s).running = true)
    (hfood : wrapCell worldW worldH (rawHead s hd0) ∈ s.food) :
    (moveSnake worldW worldH s).food = s.food.erase (wrapCell worldW worldH (rawHead s hd0))
    ∧ (moveSnake worldW worldH s).spare_parts =
        (if 0 < s.spare_parts then s.spare_parts - 1 else s.spare_parts) + PARTS_AFTER_FOOD
    ∧ ∀ x ∈ s.food, x ≠ wrapCell worldW worldH (rawHead s hd0) →
        x ∈ (moveSnake worldW worldH s).food := by
  have hmem : rawHead s hd0 ∉ (hd0 :: rest).dropLast := by
    intro hm
    rw [moveSnake_cons worldW worldH s hd0 rest hsn] at halive
    simp [hm] at halive
  rw [moveSnake_cons worldW worldH s hd0 rest hsn]
  refine ⟨by simp [hmem, hfood], by simp [hmem, hfood], ?_⟩
  intro x hx hne
  simp [hmem, hfood]
  exact ⟨hne, hx⟩

/-- Witness for C5: eating the spec's example food cell `(6,5)` from
`c5State` removes it and queues three spare parts. -/
theorem eat_food_effects_witness :
    (moveSnake 10 10 c5State).food
        = c5State.food.erase (wrapCell 10 10 (rawHead c5State (5, 5)))
    ∧ (moveSnake 10 10 c5State).spare_parts =
        (if 0 < c5State.spare_parts then c5State.spare_parts - 1 else c5State.spare_parts)
          + PARTS_AFTER_FOOD :=
  ⟨(eat_food_effects 10 10 c5State (5, 5) [(5, 6)] rfl (by decide) (by decide)).1,
   (eat_food_effects 10 10 c5State (5, 5) [(5, 6)] rfl (by decide) (by decide)).2.1⟩

/-- The head of the body after a surviving update is the wrapped raw
head. -/
theorem moveSnake_head (worldW worldH : Int) (s : GameState) (hd0 : Int × Int)
    (rest : List (Int × Int)) (hsn : s.snake = hd0 :: rest)
    (hsur : (moveSnake worldW worldH s).running = true) :
    (moveSnake worldW worldH s).snake.head? =
      some (wrapCell worldW worldH (rawHead s hd0)) := by
  by_cases hmem : rawHead s hd0 ∈ (hd0 :: rest).dropLast
  · rw [moveSnake_cons worldW worldH s hd0 rest hsn] at hsur
    simp [hmem] at hsur
  · rw [moveSnake_cons worldW worldH s hd0 rest hsn]
    simp [hmem]

/-- Claim C8: toroidal wrapping at the four edges, for a surviving update:
Left from `x = 0` lands on `x = worldW - 1`, Right from `x = worldW - 1`
lands on `x = 0`, Up from `y = 0` lands on `y = worldH - 1`, and Down from
`y = worldH - 1` lands on `y = 0`. -/
theorem toroidal_wrap_edges (worldW worldH : Int) (hW : 0 < worldW) (hH : 0 < worldH) :
    (∀ (s : GameState) (y : Int) (t : List (Int × Int)),
        s.snake = (0, y) :: t → 0 ≤ y → y < worldH →
        effectiveDirection s.direction s.last_direction = Direction.left →
        (moveSnake worldW worldH s).running = true →
        (moveSnake worldW worldH s).snake.head? = some (worldW - 1, y))
    ∧ (∀ (s : GameState) (y : Int) (t : List (Int × Int)),
        s.snake = (worldW - 1, y) :: t → 0 ≤ y → y < worldH →
        effectiveDirection s.direction s.last_direction = Direction.right →
        (moveSnake worldW worldH s).running = true →
        (moveSnake worldW worldH s).snake.head? = some (0, y))
    ∧ (∀ (s : GameState) (x : Int) (t : List (Int × Int)),
        s.snake = (x, 0) :: t → 0 ≤ x → x < worldW →
        effectiveDirection s.direction s.last_direction = Direction.up →
        (moveSnake worldW worldH s).running = true →
        (moveSnake worldW worldH s).snake.head? = some (x, worldH - 1))
    ∧ (∀ (s : GameState) (x : Int) (t : List (Int × Int)),
        s.snake = (x, worldH - 1) :: t → 0 ≤ x → x < worldW →
        effectiveDirection s.direction s.last_direction = Direction.down →
        (moveSnake worldW worldH s).running = true →
        (moveSnake worldW worldH s).snake.head? = some (x, 0)) := by
  have hmodW : ∀ a : Int, 0 ≤ a → a < worldW → a % worldW = a := fun a h1 h2 =>
    Int.emod_eq_of_lt h1 h2
  have hmodH : ∀ a : Int, 0 ≤ a → a < worldH → a % worldH = a := fun a h1 h2 =>
    Int.emod_eq_of_lt h1 h2
  have hnegW : (-1 : Int) % worldW = worldW - 1 := by
    have h2 : ((-1 : Int) + worldW * 1) % worldW = (-1) % worldW :=
      Int.add_mul_emod_self_left (-1) worldW 1
    rw [← h2, mul_one, Int.emod_eq_of_lt (by omega) (by omega)]
    omega
  have hnegH : (-1 : Int) % worldH = worldH - 1 := by
    have h2 : ((-1 : Int) + worldH * 1) % worldH = (-1) % worldH :=
      Int.add_mul_emod_self_left (-1) worldH 1
    rw [← h2, mul_one, Int.emod_eq_of_lt (by omega) (by omega)]
    omega
  have hselfW : (worldW - 1 + 1) % worldW = 0 := by
    have : worldW - 1 + 1 = worldW := by omega
    rw [this, Int.emod_self]
  have hselfH : (worldH - 1 + 1) % worldH = 0 := by
    have : worldH - 1 + 1 = worldH := by omega
    rw [this, Int.emod_self]
  refine ⟨fun s y t hsn hy1 hy2 heff hsur => ?_, fun s y t hsn hy1 hy2 heff hsur => ?_,
          fun s x t hsn hx1 hx2 heff hsur => ?_, fun s x t hsn hx1 hx2 heff hsur => ?_⟩
  · rw [moveSnake_head worldW worldH s (0, y) t hsn hsur]
    simp [wrapCell, rawHead, add_vectors, heff, Direction.vector, hnegW, hmodH y hy1 hy2]
  · rw [moveSnake_head worldW worldH s (worldW - 1, y) t hsn hsur]
    simp [wrapCell, rawHead, add_vectors, heff, Direction.vector, hselfW, hmodH y hy1 hy2]
  · rw [moveSnake_head worldW worldH s (x, 0) t hsn hsur]
    simp [wrapCell, rawHead, add_vectors, heff, Direction.vector, hnegH, hmodW x hx1 hx2]
  · rw [moveSnake_head worldW worldH s (x, worldH - 1) t hsn hsur]
    simp [wrapCell, rawHead, add_vectors, heff, Direction.vector, hselfH, hmodW x hx1 hx2]

/-- Witness for C8: in a 5 x 5 world, moving Left from head `(0,2)` wraps
to `(4,2)`. -/
theorem toroidal_wrap_edges_witness :
    (moveSnake 5 5 c8State).snake.head? = some (5 - 1, 2) :=
  (toroidal_wrap_edges 5 5 (by decide) (by decide)).1 c8State 2 [(1, 2)] rfl
    (by decide) (by decide) rfl (by decide)

/-- Food spawning changes only the food set and the food deadline. -/
theorem spawnFood_preserves (now fd : Rat) (c : Int × Int) (s : GameState) :
    (spawnFood now fd c s).snake = s.snake
    ∧ (spawnFood now fd c s).spare_parts = s.spare_parts
    ∧ (spawnFood now fd c s).direction = s.direction
    ∧ (spawnFood now fd c s).last_direction = s.last_direction
    ∧ (spawnFood now fd c s).next_frame = s.next_frame
    ∧ (spawnFood now fd c s).running = s.running
    ∧ (spawnFood now fd c s).paused = s.paused := by
  rw [spawnFood]
  split_ifs <;> simp

/-- The snake update never touches the input buffer. -/
theorem moveSnake_preserves_input (worldW worldH : Int) (s : GameState) :
    (moveSnake worldW worldH s).direction = s.direction
    ∧ (moveSnake worldW worldH s).last_direction = s.last_direction := by
  rcases hsn : s.snake with _ | ⟨hd0, rest⟩
  · rw [moveSnake, hsn]
    exact ⟨rfl, rfl⟩
  · rw [moveSnake_cons worldW worldH s hd0 rest hsn]
    split_ifs <;> simp

/-- One simulation pass preserves the held-key list and `last_direction`:
only KEYDOWN/KEYUP events move them. -/
theorem tick_preserves_input (worldW worldH : Int) (now fd : Rat) (c : Int × Int)
    (s : GameState) :
    (tick worldW worldH now fd c s).direction = s.direction
    ∧ (tick worldW worldH now fd c s).last_direction = s.last_direction := by
  rw [tick]
  by_cases hp : s.paused = true
  · rw [if_pos hp]
    exact ⟨rfl, rfl⟩
  · rw [if_neg hp]
    by_cases hf : now < (spawnFood now fd c s).next_frame
    · simp only [if_pos hf]
      exact ⟨(spawnFood_preserves now fd c s).2.2.1,
             (spawnFood_preserves now fd c s).2.2.2.1⟩
    · simp only [if_neg hf]
      refine ⟨?_, ?_⟩
      · rw [(moveSnake_preserves_input worldW worldH _).1]
        exact (spawnFood_preserves now fd c s).2.2.1
      · rw [(moveSnake_preserves_input worldW worldH _).2]
        exact (spawnFood_preserves now fd c s).2.2.2.1

/-- Claim C6: the effective direction is the most recently pressed key
still held, else the last released one: (i) `effectiveDirection` returns
the last element of a non-empty held list, (ii) and `lastReleased` when
nothing is held; (iii) pressing Up (`w`) then Right (`d`) then releasing
Right yields Up; (iv) releasing the only held key Up empties the list,
records Up as last released, and the effective direction is still Up;
(v) a simulation pass changes neither the held list nor `last_direction`,
so the effective direction is stable until another key event. -/
theorem effective_direction_spec :
    (∀ (l : List Direction) (last : Direction) (h : l ≠ []),
        effectiveDirection l last = l.getLast h)
    ∧ (∀ last : Direction, effectiveDirection [] last = last)
    ∧ (∀ (s : GameState) (n1 f1 n2 f2 n3 f3 : Rat), s.direction = [] →
        ∃ s1 s2 s3,
          handleEvent n1 f1 (Event.keyDown Key.w) s = Except.ok s1
          ∧ handleEvent n2 f2 (Event.keyDown Key.d) s1 = Except.ok s2
          ∧ handleEvent n3 f3 (Event.keyUp Key.d) s2 = Except.ok s3
          ∧ effectiveDirection s3.direction s3.last_direction = Direction.up)
    ∧ (∀ (s : GameState) (n f : Rat), s.direction = [Direction.up] →
        ∃ s1,
          handleEvent n f (Event.keyUp Key.w) s = Except.ok s1
          ∧ s1.direction = []
          ∧ s1.last_direction = Direction.up
          ∧ effectiveDirection s1.direction s1.last_direction = Direction.up)
    ∧ (∀ (worldW worldH : Int) (now fd : Rat) (c : Int × Int) (s : GameState),
        (tick worldW worldH now fd c s).direction = s.direction
        ∧ (tick worldW worldH now fd c s).last_direction = s.last_direction) := by
  refine ⟨?_, fun last => rfl, ?_, ?_, tick_preserves_input⟩
  · intro l last h
    match l with
    | a :: l' =>
      rw [effectiveDirection, List.getLastD_cons, List.getLast_eq_getLastD]
  · intro s n1 f1 n2 f2 n3 f3 hdir
    obtain ⟨sn, sp, dir, ld, fo, nf, nfr, ru, pa⟩ := s
    simp only at hdir
    subst hdir
    exact ⟨_, _, _, rfl, rfl, rfl, rfl⟩
  · intro s n f hdir
    obtain ⟨sn, sp, dir, ld, fo, nf, nfr, ru, pa⟩ := s
    simp only at hdir
    subst hdir
    exact ⟨_, rfl, rfl, rfl, rfl⟩

/-- Witness for C6: the press-Up, press-Right, release-Right scenario run
from the initial state ends with effective direction Up. -/
theorem effective_direction_spec_witness :
    ∃ s1 s2 s3,
      handleEvent 0 1 (Event.keyDown Key.w) (initState 10 10 0 0) = Except.ok s1
      ∧ handleEvent 0 1 (Event.keyDown Key.d) s1 = Except.ok s2
      ∧ handleEvent 0 1 (Event.keyUp Key.d) s2 = Except.ok s3
      ∧ effectiveDirection s3.direction s3.last_direction = Direction.up :=
  effective_direction_spec.2.2.1 (initState 10 10 0 0) 0 1 0 1 0 1 rfl

/-- A successful KEYUP handling changes only the input buffer. -/
theorem keyUpDir_ok_fields {d : Direction} {s s2 : GameState}
    (h : keyUpDir d s = Except.ok s2) :
    s2.spare_parts = s.spare_parts ∧ s2.snake = s.snake ∧ s2.food = s.food
    ∧ (s2.running = true → s.running = true) := by
  rw [keyUpDir] at h
  rcases hrm : removeFirst d s.direction with _ | l <;> rw [hrm] at h
  · simp at h
  · simp only [Except.ok.injEq] at h
    subst h
    exact ⟨rfl, rfl, rfl, fun hr => hr⟩

/-- A successfully handled event never changes the body, the growth
counter or the food set, and can only clear the running flag, never set
it. -/
theorem handleEvent_ok_fields {now fs : Rat} {e : Event} {s s2 : GameState}
    (h : handleEvent now fs e s = Except.ok s2) :
    s2.spare_parts = s.spare_parts ∧ s2.snake = s.snake ∧ s2.food = s.food
    ∧ (s2.running = true → s.running = true) := by
  cases e with
  | quit =>
    simp only [handleEvent, Except.ok.injEq] at h
    subst h
    exact ⟨rfl, rfl, rfl, fun hr => by simp at hr⟩
  | keyDown k =>
    cases k <;> simp only [handleEvent, Except.ok.injEq] at h <;> subst h <;>
      refine ⟨rfl, rfl, rfl, fun hr => ?_⟩ <;> first | exact hr | simp at hr
  | keyUp k =>
    cases k with
    | w => exact keyUpDir_ok_fields h
    | a => exact keyUpDir_ok_fields h
    | s => exact keyUpDir_ok_fields h
    | d => exact keyUpDir_ok_fields h
    | space =>
      simp only [handleEvent, Except.ok.injEq] at h
      subst h
      exact ⟨rfl, rfl, rfl, fun hr => hr⟩
    | escape =>
      simp only [handleEvent, Except.ok.injEq] at h
      subst h
      exact ⟨rfl, rfl, rfl, fun hr => hr⟩
    | other =>
      simp only [handleEvent, Except.ok.injEq] at h
      subst h
      exact ⟨rfl, rfl, rfl, fun hr => hr⟩
  | other =>
    simp only [handleEvent, Except.ok.injEq] at h
    subst h
    exact ⟨rfl, rfl, rfl, fun hr => hr⟩

/-- The snake update keeps the growth counter non-negative: it decrements
only under the `spare_parts > 0` guard and otherwise adds 3 or leaves it
alone. -/
theorem moveSnake_spare_lb (worldW worldH : Int) (s : GameState)
    (h : 0 ≤ s.spare_parts) : 0 ≤ (moveSnake worldW worldH s).spare_parts := by
  rcases hsn : s.snake with _ | ⟨hd0, rest⟩
  · rw [moveSnake, hsn]
    exact h
  · rw [moveSnake_cons worldW worldH s hd0 rest hsn]
    by_cases hmem : rawHead s hd0 ∈ (hd0 :: rest).dropLast
    · simp only [if_pos hmem]
      exact h
    · simp only [if_neg hmem]
      by_cases hsp : 0 < s.spare_parts <;>
        by_cases hfd : wrapCell worldW worldH (rawHead s hd0) ∈ s.food <;>
          simp [hsp, hfd, PARTS_AFTER_FOOD] <;> omega

/-- One simulation pass keeps the growth counter non-negative. -/
theorem tick_spare_lb (worldW worldH : Int) (now fd : Rat) (c : Int × Int)
    (s : GameState) (h : 0 ≤ s.spare_parts) :
    0 ≤ (tick worldW worldH now fd c s).spare_parts := by
  rw [tick]
  by_cases hp : s.paused = true
  · rw [if_pos hp]
    exact h
  · rw [if_neg hp]
    by_cases hf : now < (spawnFood now fd c s).next_frame
    · rw [if_pos hf]
      rw [(spawnFood_preserves now fd c s).2.1]
      exact h
    · rw [if_neg hf]
      apply moveSnake_spare_lb
      show 0 ≤ (spawnFood now fd c s).spare_parts
      rw [(spawnFood_preserves now fd c s).2.1]
      exact h

/-- Claim C9: `spare_parts` is non-negative in every reachable state — it
starts at 0, events never touch it, a tick decrements it only under the
`spare_parts > 0` guard and otherwise only adds `PARTS_AFTER_FOOD`. -/
theorem spare_parts_nonneg (worldW worldH : Int) (tF tR : Rat) (s : GameState)
    (h : Reachable worldW worldH tF tR s) : 0 ≤ s.spare_parts := by
  induction h with
  | init => exact le_refl 0
  | step hr hst ih =>
    cases hst with
    | ev now fs e sA sB hev =>
      rw [(handleEvent_ok_fields hev).1]
      exact ih
    | frame now fd c sA =>
      exact tick_spare_lb worldW worldH now fd c _ ih

/-- Witness for C9: the invariant evaluated at the initial state. -/
theorem spare_parts_nonneg_witness :
    0 ≤ (initState 10 10 0 0).spare_parts :=
  spare_parts_nonneg 10 10 0 0 (initState 10 10 0 0) Reachable.init

/-- The initial body lies inside the grid as soon as the world is at least
1 x 7 (four segments stacked below the centre row). -/
theorem initState_inGrid (worldW worldH : Int) (tF tR : Rat)
    (hW : 0 < worldW) (hH : 7 ≤ worldH) :
    ∀ p ∈ (initState worldW worldH tF tR).snake, inGrid worldW worldH p := by
  intro p hp
  have hsnake : (initState worldW worldH tF tR).snake =
      [(worldW / 2, worldH / 2 + (0 : Int)), (worldW / 2, worldH / 2 + (1 : Int)),
       (worldW / 2, worldH / 2 + (2 : Int)), (worldW / 2, worldH / 2 + (3 : Int))] := rfl
  rw [hsnake] at hp
  simp only [List.mem_cons, List.not_mem_nil, or_false] at hp
  rcases hp with rfl | rfl | rfl | rfl <;> simp only [inGrid] <;> omega

/-- The snake update keeps a living body inside the grid: the surviving
head is wrapped into range, the shifted segments and the re-appended tail
are old in-range cells. -/
theorem moveSnake_inGrid (worldW worldH : Int) (hW : 0 < worldW) (hH : 0 < worldH)
    (s : GameState) (hinv : s.running = true → ∀ p ∈ s.snake, inGrid worldW worldH p) :
    (moveSnake worldW worldH s).running = true →
      ∀ p ∈ (moveSnake worldW worldH s).snake, inGrid worldW worldH p := by
  rcases hsn : s.snake with _ | ⟨hd0, rest⟩
  · rw [moveSnake, hsn]
    exact hinv
  · rw [moveSnake_cons worldW worldH s hd0 rest hsn]
    by_cases hmem : rawHead s hd0 ∈ (hd0 :: rest).dropLast
    · simp only [if_pos hmem]
      intro hr
      simp at hr
    · simp only [if_neg hmem]
      intro hr p hp
      have hr0 : s.running = true := by simpa using hr
      have hold : ∀ p ∈ s.snake, inGrid worldW worldH p := hinv hr0
      have hwrap : inGrid worldW worldH (wrapCell worldW worldH (rawHead s hd0)) := by
        simp only [inGrid]
        exact ⟨Int.emod_nonneg _ (ne_of_gt hW), Int.emod_lt_of_pos _ hW,
               Int.emod_nonneg _ (ne_of_gt hH), Int.emod_lt_of_pos _ hH⟩
      by_cases hsp : 0 < s.spare_parts <;>
        simp only [hsp, if_true, if_false, List.mem_append, List.mem_cons,
          List.mem_singleton, List.not_mem_nil, or_false] at hp
      · rcases hp with (rfl | hp2) | rfl
        · exact hwrap
        · exact hold p (by rw [hsn]; exact List.dropLast_subset _ hp2)
        · exact hold _ (by rw [hsn]; exact List.getLastD_mem_cons rest hd0)
      · rcases hp with rfl | hp2
        · exact hwrap
        · exact hold p (by rw [hsn]; exact List.dropLast_subset _ hp2)

/-- One simulation pass keeps a living body inside the grid. -/
theorem tick_inGrid (worldW worldH : Int) (hW : 0 < worldW) (hH : 0 < worldH)
    (now fd : Rat) (c : Int × Int) (s : GameState)
    (hinv : s.running = true → ∀ p ∈ s.snake, inGrid worldW worldH p) :
    (tick worldW worldH now fd c s).running = true →
      ∀ p ∈ (tick worldW worldH now fd c s).snake, inGrid worldW worldH p := by
  rw [tick]
  by_cases hp : s.paused = true
  · rw [if_pos hp]
    exact hinv
  · rw [if_neg hp]
    by_cases hf : now < (spawnFood now fd c s).next_frame
    · rw [if_pos hf]
      intro hr p hp2
      apply hinv
      · rw [← (spawnFood_preserves now fd c s).2.2.2.2.2.1]
        exact hr
      · rw [← (spawnFood_preserves now fd c s).1]
        exact hp2
    · rw [if_neg hf]
      apply moveSnake_inGrid worldW worldH hW hH
      intro hr p hp2
      apply hinv
      · rw [← (spawnFood_preserves now fd c s).2.2.2.2.2.1]
        exact hr
      · rw [← (spawnFood_preserves now fd c s).1]
        exact hp2

/-- The snake update never removes a food cell lying outside the grid: the
only removal is of the wrapped head, whose coordinates are in range. -/
theorem moveSnake_oob_food (worldW worldH : Int) (hW : 0 < worldW) (hH : 0 < worldH)
    (s : GameState) (cell : Int × Int) (hc : cell ∈ s.food)
    (hoob : cell.1 = worldW ∨ cell.2 = worldH) :
    cell ∈ (moveSnake worldW worldH s).food := by
  rcases hsn : s.snake with _ | ⟨hd0, rest⟩
  · rw [moveSnake, hsn]
    exact hc
  · rw [moveSnake_cons worldW worldH s hd0 rest hsn]
    by_cases hmem : rawHead s hd0 ∈ (hd0 :: rest).dropLast
    · simp only [if_pos hmem]
      exact hc
    · simp only [if_neg hmem]
      by_cases hfd : wrapCell worldW worldH (rawHead s hd0) ∈ s.food
      · simp only [if_pos hfd]
        apply Finset.mem_erase.mpr
        refine ⟨?_, hc⟩
        intro heq
        have h1 : (wrapCell worldW worldH (rawHead s hd0)).1 < worldW :=
          Int.emod_lt_of_pos _ hW
        have h2 : (wrapCell worldW worldH (rawHead s hd0)).2 < worldH :=
          Int.emod_lt_of_pos _ hH
        rcases hoob with ho | ho <;> rw [heq] at ho <;> omega
      · simp only [if_neg hfd]
        exact hc

/-- One simulation pass never removes a food cell lying outside the grid;
spawning can only add cells. -/
theorem tick_oob_food (worldW worldH : Int) (hW : 0 < worldW) (hH : 0 < worldH)
    (now fd : Rat) (c : Int × Int) (s : GameState) (cell : Int × Int)
    (hc : cell ∈ s.food) (hoob : cell.1 = worldW ∨ cell.2 = worldH) :
    cell ∈ (tick worldW worldH now fd c s).food := by
  rw [tick]
  by_cases hp : s.paused = true
  · rw [if_pos hp]
    exact hc
  · rw [if_neg hp]
    have hc1 : cell ∈ (spawnFood now fd c s).food := by
      rw [spawnFood]
      split_ifs <;> simp [hc]
    by_cases hf : now < (spawnFood now fd c s).next_frame
    · rw [if_pos hf]
      exact hc1
    · rw [if_neg hf]
      exact moveSnake_oob_food worldW worldH hW hH _ cell hc1 hoob

/-- Claim C10: (i) for a world of positive width and height at least 7 (so
the initial body fits), every body cell of a living snake lies inside
`[0, worldW) x [0, worldH)` in every reachable state; (ii) a food cell on
the out-of-range line `x = worldW` or `y = worldH` (which `randint`'s
inclusive upper bound can produce) can never equal the wrapped head and
survives every further step of the loop. -/
theorem grid_and_oob_food_invariants (worldW worldH : Int) (tF tR : Rat)
    (hW : 0 < worldW) (hH : 7 ≤ worldH) :
    (∀ s, Reachable worldW worldH tF tR s → s.running = true →
        ∀ p ∈ s.snake, inGrid worldW worldH p)
    ∧ (∀ s s2 : GameState, ∀ cell : Int × Int,
        Relation.ReflTransGen (Step worldW worldH) s s2 →
        cell ∈ s.food → (cell.1 = worldW ∨ cell.2 = worldH) → cell ∈ s2.food) := by
  have hH0 : (0 : Int) < worldH := by omega
  constructor
  · intro s hreach
    induction hreach with
    | init => intro _; exact initState_inGrid worldW worldH tF tR hW hH
    | step hr hst ih =>
      cases hst with
      | ev now fs e sA sB hev =>
        intro hrun p hp
        have hfields := handleEvent_ok_fields hev
        apply ih (hfields.2.2.2 hrun) p
        rw [← hfields.2.1]
        exact hp
      | frame now fd c sA =>
        exact tick_inGrid worldW worldH hW hH0 now fd c _ ih
  · intro s s2 cell hsteps hc hoob
    induction hsteps with
    | refl => exact hc
    | tail hsteps hstep ih =>
      cases hstep with
      | ev now fs e sA sB hev =>
        rw [(handleEvent_ok_fields hev).2.2.1]
        exact ih
      | frame now fd c sA =>
        exact tick_oob_food worldW worldH hW hH0 now fd c _ cell ih hoob

/-- Witness for C10: the body-in-grid invariant evaluated at the head cell
of the initial state of a 2 x 7 world. -/
theorem grid_and_oob_food_invariants_witness :
    inGrid 2 7 (1, 3) :=
  (grid_and_oob_food_invariants 2 7 0 0 (by decide) (by decide)).1
    (initState 2 7 0 0) Reachable.init rfl (1, 3) (by decide)

end SnakeGame
